import Mathlib

/-!
# Verification of the conversational exchange-bot core (src/main.py)

A shallow embedding of the program's core: the configuration tables, the
pricing retry loop (`BinanceAPI.get_price`), the calculation branches of
`process_amount`, the dual-sink persistence (`DatabaseManager.save_transaction`,
`DataExporter.save_to_csv`, `handle_confirmation`), the history query
(`DatabaseManager.get_history`, `show_history`), and the conversation handlers
(`start`, `handle_operation`, the `cancel` fallback).

Numeric values (Python floats) are modelled as exact rationals `ℚ`; where a
property concerns the binary floating-point representation itself, a separate
round-to-nearest binary64 model (`fl`) is used and clearly marked.  Replies
sent to the user are modelled as an inductive type carrying the displayed
values; the final `"{x:.8f}"` text formatting is abstracted away.  External
effects (the HTTP quote source, sqlite, the filesystem) are passed in as
explicit oracle arguments.
-/

namespace FreeBaseCrypto

/-- `EXCHANGE_TYPES = {"crypto": 0.02, "cleaning": 0.10}` (src/main.py line 30). -/
def EXCHANGE_TYPES : String → Option ℚ
  | "crypto" => some (2 / 100)
  | "cleaning" => some (10 / 100)
  | _ => none

/-- `SUPPORTED_PAIRS` (src/main.py lines 31-38): keys mapped to the provider
symbol; the `"cleaning"` key maps to Python `None`. -/
def SUPPORTED_PAIRS : List (String × Option String) :=
  [("BTC-USDT", some "BTCUSDT"),
   ("ETH-USDT", some "ETHUSDT"),
   ("BNB-USDT", some "BNBUSDT"),
   ("XRP-USDT", some "XRPUSDT"),
   ("TRX-USDT", some "TRXUSDT"),
   ("cleaning", none)]

/-- Python `SUPPORTED_PAIRS.get(k)`: `None` both for a missing key and for the
`"cleaning"` entry whose value is `None`. -/
def SUPPORTED_PAIRS_get (k : String) : Option String :=
  (SUPPORTED_PAIRS.lookup k).join

/-- The callback-data identifiers offered by the `start` menu
(src/main.py lines 131-137). -/
def startMenuData : List String :=
  ["BTC-USDT", "USDT-BTC", "ETH-USDT", "USDT-ETH", "cleaning"]

/-! ## String helpers

Python's `str.split('-')`, `str.replace(',', '.')` and `float()` digit parsing,
re-implemented by structural recursion on the character list so that they
evaluate inside the kernel. -/

/-- Python `s.split(c)`: splits on every occurrence, `"".split(c) = [""]`. -/
def splitOnChar (c : Char) : List Char → List (List Char)
  | [] => [[]]
  | x :: t =>
    match splitOnChar c t, decide (x = c) with
    | r, true => [] :: r
    | [], false => [[x]]
    | h :: t', false => (x :: h) :: t'

/-- `operation.split('-')` as used in `handle_operation` / `process_amount`. -/
def splitDash (s : String) : List String :=
  (splitOnChar '-' s.data).map (fun l => ⟨l⟩)

/-- Accumulating decimal-digit parse of a character list. -/
def digitsToNatAux (acc : ℕ) : List Char → Option ℕ
  | [] => some acc
  | c :: t =>
    if c.isDigit then digitsToNatAux (acc * 10 + (c.toNat - '0'.toNat)) t
    else none

/-- All-digit string to `ℕ`; `none` on empty input or any non-digit. -/
def digitsToNat? (l : List Char) : Option ℕ :=
  if l.isEmpty then none else digitsToNatAux 0 l

/-- Digit-level decomposition of a decimal literal after the
`replace(',', '.')`: the integer part, the fractional digits' value and their
count.  `"12" ↦ (12, 0, 0)`, `"0.01" ↦ (0, 1, 2)`. -/
def parseParts (s : String) : Option (ℕ × ℕ × ℕ) :=
  let t := s.data.map (fun ch => if ch = ',' then '.' else ch)
  match splitOnChar '.' t with
  | [w] => (digitsToNat? w).map (fun n => (n, 0, 0))
  | [w, f] =>
    match digitsToNat? w, digitsToNat? f with
    | some n, some m => some (n, m, f.length)
    | _, _ => none
  | _ => none

/-- The amount parse of `process_amount` (src/main.py line 176):
`float(update.message.text.replace(',', '.'))`, modelled on the decimal-literal
subset `digits[.digits]` of Python float syntax, read exactly into `ℚ`
(exponent forms, signs, `inf`/`nan` and surrounding whitespace are outside the
modelled input language; a sign would be rejected by the positivity check
anyway). -/
def parseDecimal (s : String) : Option ℚ :=
  (parseParts s).map (fun p => (p.1 : ℚ) + (p.2.1 : ℚ) / (10 : ℚ) ^ p.2.2)

/-! ## PricingService: `BinanceAPI.get_price` (src/main.py lines 81-98) -/

/-- Outcome of one HTTP attempt, as discriminated by the two `except` clauses:
`requests.exceptions.RequestException` (timeout, connection error,
`raise_for_status`) versus `KeyError`/`ValueError` from `["price"]`/`float()`
on a successful response. -/
inductive FetchOutcome where
  | netErr
  | dataErr
  | ok (price : ℚ)
deriving DecidableEq

/-- The `for _ in range(retries)` loop: `fuel` attempts remain, `calls` made so
far.  A network error continues the loop, a data error `break`s, a parsed
price returns immediately; the loop falling through returns `None`.  The
second component counts the calls actually made. -/
def getPriceAux (src : ℕ → FetchOutcome) : ℕ → ℕ → Option ℚ × ℕ
  | 0, calls => (none, calls)
  | fuel + 1, calls =>
    match src calls with
    | .ok p => (some p, calls + 1)
    | .dataErr => (none, calls + 1)
    | .netErr => getPriceAux src fuel (calls + 1)

/-- `BinanceAPI.get_price` with `retries = 3`, the quote source abstracted as a
function from attempt index to outcome. -/
def get_price (src : ℕ → FetchOutcome) : Option ℚ × ℕ :=
  getPriceAux src 3 0

/-! ## CalculationEngine: the branches of `process_amount` -/

/-- The cleaning branch (src/main.py lines 196-198):
`commission = amount * EXCHANGE_TYPES["cleaning"]; result = amount - commission`,
returned as `(commission, result)`. -/
def cleanCalc (amount : ℚ) : ℚ × ℚ :=
  let commission := amount * (10 / 100)
  (commission, amount - commission)

/-- The convert branch (src/main.py lines 209-216): divide when the source
currency is USDT, multiply otherwise; then
`commission = calculated * EXCHANGE_TYPES["crypto"]; result = calculated - commission`.
Returned as `(calculated, commission, result)`. -/
def convertCalc (from_cur : String) (amount price : ℚ) : ℚ × ℚ × ℚ :=
  let calculated := if from_cur = "USDT" then amount / price else amount * price
  let commission := calculated * (2 / 100)
  (calculated, commission, calculated - commission)

/-! ## Session and replies -/

/-- The per-user `context.user_data` dictionary, with the keys the program
uses; an absent key is `none`.  The `"user"` entry holds `(id, username)`. -/
structure UserData where
  operation : Option String
  price : Option ℚ
  user : Option (Int × String)
  from_amount : Option ℚ
  to_amount : Option ℚ
  commission : Option ℚ
deriving DecidableEq

/-- `context.user_data.clear()` / a fresh user's empty dictionary. -/
def UserData.empty : UserData :=
  ⟨none, none, none, none, none, none⟩

/-- Conversation-handler return values: the `INPUT_AMOUNT` state (src/main.py
line 40) or `ConversationHandler.END`. -/
inductive ConvState where
  | INPUT_AMOUNT
  | END
deriving DecidableEq

/-- Replies sent to the user, carrying the numeric values displayed; the
`"{x:.8f}"` textual formatting is abstracted.  Each constructor corresponds to
one `reply_text`/`edit_message_text` call in src/main.py. -/
inductive Reply where
  | menu
  | promptCleaning
  | promptAmount (cur : String)
  | opError
  | invalidAmount
  | staleSession
  | cleanSummary (amount commission result : ℚ)
  | convertSummary (amount : ℚ) (from_cur to_cur : String) (price result commission : ℚ)
  | saved
  | saveError
  | cancelled
deriving DecidableEq

/-- Result of one conversation-handler invocation. -/
structure HandlerResult where
  data : UserData
  reply : Reply
  next : ConvState
deriving DecidableEq

/-! ## ConversationController handlers -/

/-- The symbol looked up by `handle_operation` (src/main.py line 159):
`SUPPORTED_PAIRS.get(f"{from_cur}-{to_cur}")`. -/
def lookupSymbol (from_cur to_cur : String) : Option String :=
  SUPPORTED_PAIRS_get (from_cur ++ "-" ++ to_cur)

/-- `handle_operation` (src/main.py lines 145-172).  `fetch` abstracts
`binance.get_price` applied to the looked-up symbol (`none` models Python
`None` returned after the retry loop).  The handler clears `user_data`, stores
the operation, and for a non-cleaning operation splits it, looks up the
symbol and fetches; `if not price` (so also for a price of exactly `0`) a
`ValueError` is raised and the `except` branch replies with the operation
error and ends the conversation — without clearing `user_data` again, so the
stored operation survives.  A split that does not produce exactly two parts
raises inside the same `try` and lands in the same `except` branch. -/
def handle_operation (op : String) (fetch : Option String → Option ℚ) : HandlerResult :=
  let d0 : UserData := { UserData.empty with operation := some op }
  if op = "cleaning" then
    ⟨d0, .promptCleaning, .INPUT_AMOUNT⟩
  else
    match splitDash op with
    | [from_cur, to_cur] =>
      match fetch (lookupSymbol from_cur to_cur) with
      | some price =>
        if price = 0 then ⟨d0, .opError, .END⟩
        else ⟨{ d0 with price := some price }, .promptAmount from_cur, .INPUT_AMOUNT⟩
      | none => ⟨d0, .opError, .END⟩
    | _ => ⟨d0, .opError, .END⟩

/-- Display identity resolution (src/main.py line 193):
`user.username or f"user_{user.id}"`. -/
def usernameOrDefault (uid : Int) (username : Option String) : String :=
  username.getD ("user_" ++ toString uid)

/-- `process_amount` (src/main.py lines 174-240).  Parse failure or a
non-positive value re-prompts and stays in `INPUT_AMOUNT`; a missing
`"operation"` key is the stale-session reply; otherwise the user identity is
stored and the cleaning or convert branch computes and stores
`from_amount`/`to_amount`/`commission` and shows the summary with the
Confirm/Cancel keyboard, returning `ConversationHandler.END`.  The value
`none` models an uncaught exception: a non-cleaning operation whose split is
not two parts, or a missing `"price"` key (Python would raise a `TypeError`
outside any `try`). -/
def process_amount (txt : String) (d : UserData) (uid : Int) (username : Option String) :
    Option HandlerResult :=
  match parseDecimal txt with
  | none => some ⟨d, .invalidAmount, .INPUT_AMOUNT⟩
  | some amount =>
    if amount ≤ 0 then some ⟨d, .invalidAmount, .INPUT_AMOUNT⟩
    else
      match d.operation with
      | none => some ⟨d, .staleSession, .END⟩
      | some op =>
        let d1 := { d with user := some (uid, usernameOrDefault uid username) }
        if op = "cleaning" then
          let c := cleanCalc amount
          some ⟨{ d1 with from_amount := some amount, to_amount := some c.2,
                          commission := some c.1 },
                .cleanSummary amount c.1 c.2, .END⟩
        else
          match splitDash op, d.price with
          | [from_cur, to_cur], some price =>
            let r := convertCalc from_cur amount price
            some ⟨{ d1 with from_amount := some amount, to_amount := some r.2.2,
                            commission := some r.2.1 },
                  .convertSummary amount from_cur to_cur price r.2.2 r.2.1, .END⟩
          | _, _ => none

/-- The `cancel` fallback of the `ConversationHandler`
(src/main.py line 335): `lambda u, c: ConversationHandler.END`.  It sends no
reply and does not touch `user_data`; it only ends the conversation. -/
def cancel_fallback (d : UserData) : UserData × Option Reply × ConvState :=
  (d, none, .END)

/-! ## Persistence: the two sinks and `handle_confirmation` -/

/-- A row of the sqlite `transactions` table (src/main.py lines 50-58).
`timestamp` is `CURRENT_TIMESTAMP` in seconds-granularity; `id` is the
autoincrement key. -/
structure DbRow where
  id : ℕ
  user_id : Int
  username : String
  operation_type : String
  from_amount : ℚ
  to_amount : ℚ
  commission : ℚ
  timestamp : ℕ
deriving DecidableEq

/-- `DatabaseManager.save_transaction` (src/main.py lines 60-66): inserts one
row; the autoincrement id is the next integer, the timestamp defaults to the
current time. -/
def save_transaction (uid : Int) (uname op : String) (fa ta cm : ℚ) (now : ℕ)
    (table : List DbRow) : List DbRow :=
  table ++ [⟨table.length + 1, uid, uname, op, fa, ta, cm, now⟩]

/-- One row appended to `transactions.csv` by `DataExporter.save_to_csv`. -/
structure CsvRow where
  timestamp : ℕ
  user_id : Int
  username : String
  operation : String
  from_amount : ℚ
  to_amount : ℚ
  commission : ℚ
deriving DecidableEq

/-- The flat CSV log file: whether it exists, whether the header line has been
written, and the data rows. -/
structure CsvFile where
  present : Bool
  header : Bool
  rows : List CsvRow
deriving DecidableEq

/-- `DataExporter.save_to_csv` (src/main.py lines 100-123).  The whole write is
wrapped in `try/except Exception` which only logs: when the write raises
(`raises = true`) the file is unchanged and — crucially — NO exception
propagates to the caller.  Otherwise the header is written first if the file
did not yet exist, then the data row. -/
def save_to_csv (data : CsvRow) (raises : Bool) (f : CsvFile) : CsvFile :=
  if raises then f
  else
    { present := true
      header := if f.present then f.header else true
      rows := f.rows ++ [data] }

/-- The two persistence sinks together. -/
structure Sinks where
  table : List DbRow
  csv : CsvFile
deriving DecidableEq

/-- Result of `handle_confirmation`: the sinks, the reply, and the session
dictionary afterwards. -/
structure ConfirmResult where
  sinks : Sinks
  reply : Reply
  data : UserData
deriving DecidableEq

/-- `handle_confirmation` (src/main.py lines 242-282).  On `"confirm"` the
session keys are read (a missing key raises `KeyError` into the `except`
branch before any write), then the database insert runs (`dbRaises` models it
throwing, in which case nothing is written and the save-error reply is shown),
then `save_to_csv` runs — whose internal `except` swallows its own failure
(`csvRaises`), so the success reply is shown regardless of the CSV outcome.
Any other choice replies with the cancellation message.  `user_data.clear()`
runs unconditionally at the end. -/
def handle_confirmation (choice : String) (d : UserData) (dbRaises csvRaises : Bool)
    (st : Sinks) (now : ℕ) : ConfirmResult :=
  if choice = "confirm" then
    match d.user, d.operation, d.from_amount, d.to_amount, d.commission with
    | some (uid, uname), some op, some fa, some ta, some cm =>
      if dbRaises then ⟨st, .saveError, UserData.empty⟩
      else
        let table1 := save_transaction uid uname op fa ta cm now st.table
        let csv1 := save_to_csv ⟨now, uid, uname, op, fa, ta, cm⟩ csvRaises st.csv
        ⟨⟨table1, csv1⟩, .saved, UserData.empty⟩
    | _, _, _, _, _ => ⟨st, .saveError, UserData.empty⟩
  else ⟨st, .cancelled, UserData.empty⟩

/-! ## History: `DatabaseManager.get_history` and `show_history` -/

/-- One row of the `SELECT` projection in `get_history`
(src/main.py lines 71-75). -/
structure HistEntry where
  username : String
  operation_type : String
  from_amount : ℚ
  to_amount : ℚ
  commission : ℚ
  timestamp : ℕ
deriving DecidableEq

/-- Descending-timestamp comparison used to model `ORDER BY timestamp DESC`. -/
def tsDesc (r s : DbRow) : Prop :=
  s.timestamp ≤ r.timestamp

instance : DecidableRel tsDesc := fun r s => Nat.decLe s.timestamp r.timestamp

/-- `DatabaseManager.get_history` (src/main.py lines 68-79): on any exception
from the store, log and return `[]`; otherwise
`SELECT … WHERE user_id = ? ORDER BY timestamp DESC`.  The `ORDER BY` names
only `timestamp`; sqlite leaves the order of equal keys unspecified and
empirically returns ties in table-scan (ascending id, i.e. insertion) order,
which a stable sort of the filtered rows reproduces. -/
def get_history (db : Except String (List DbRow)) (uid : Int) : List HistEntry :=
  match db with
  | .error _ => []
  | .ok table =>
    ((table.filter (fun r => r.user_id = uid)).insertionSort tsDesc).map
      (fun r => ⟨r.username, r.operation_type, r.from_amount, r.to_amount,
                 r.commission, r.timestamp⟩)

/-- The reply of `show_history` (src/main.py lines 284-319): the
empty-history message when the fetched list is empty, otherwise the rendered
listing (its textual formatting abstracted, keeping the rendered rows). -/
inductive HistoryReply where
  | emptyHistory
  | listing (entries : List HistEntry)
deriving DecidableEq

/-- `show_history`: fetch, then branch on emptiness. -/
def show_history (db : Except String (List DbRow)) (uid : Int) : HistoryReply :=
  let ts := get_history db uid
  if ts.isEmpty then .emptyHistory else .listing ts

/-! ## Binary64 model

The program actually computes in Python `float`s (IEEE-754 binary64), not in a
decimal domain: `float(...)` parsing at line 176 and products/differences at
lines 196-216.  For the claims about the numeric representation we model the
value set as exact rationals together with the round-to-nearest-even rounding
`fl` applied to every literal, parse and arithmetic result (normal range only:
the exponent is unbounded, which is faithful for the magnitudes involved). -/

/-- `2 ^ e` in `ℚ` for an integer exponent. -/
def pow2 (e : ℤ) : ℚ :=
  if 0 ≤ e then ((2 : ℚ) ^ e.toNat) else ((2 : ℚ) ^ (-e).toNat)⁻¹

/-- Fuel-driven binary length: `bitLenAux fuel n` halves `n` until it reaches
`0`, counting the steps. -/
def bitLenAux : ℕ → ℕ → ℕ
  | 0, _ => 0
  | fuel + 1, n => if n = 0 then 0 else bitLenAux fuel (n / 2) + 1

/-- Number of binary digits of `n` (`0` for `0`); `n` itself is always enough
fuel. -/
def bitLen (n : ℕ) : ℕ :=
  bitLenAux n n

/-- `⌊log₂ q⌋` for `q > 0`: a first estimate from the bit lengths of numerator
and denominator, corrected by direct comparison. -/
def floorLog2 (q : ℚ) : ℤ :=
  let e0 : ℤ := (bitLen q.num.natAbs : ℤ) - (bitLen q.den : ℤ)
  if pow2 (e0 + 1) ≤ q then e0 + 1
  else if pow2 e0 ≤ q then e0
  else e0 - 1

/-- Round a rational to the nearest integer, ties to even. -/
def roundHalfEven (x : ℚ) : ℤ :=
  let f := ⌊x⌋
  if x < (f : ℚ) + 1 / 2 then f
  else if (f : ℚ) + 1 / 2 < x then f + 1
  else if f % 2 = 0 then f else f + 1

/-- Round a positive rational to the nearest binary64 value: a 53-bit
significand scaled by a power of two. -/
def flPos (q : ℚ) : ℚ :=
  let e := floorLog2 q - 52
  (roundHalfEven (q * pow2 (-e)) : ℚ) * pow2 e

/-- Round a rational to the nearest binary64 value. -/
def fl (q : ℚ) : ℚ :=
  if q = 0 then 0 else if q < 0 then -flPos (-q) else flPos q

/-- The cleaning branch of `process_amount` as executed in Python binary64:
the literal `0.10` denotes `fl (10/100)` and each `*` and `-` rounds its exact
result.  Returns `(commission, result)`. -/
def cleanCalcFloat (a : ℚ) : ℚ × ℚ :=
  let commission := fl (a * fl (10 / 100))
  (commission, fl (a - commission))

/-! Concrete binary64 roundings, each checked against the rounding definition;
the fractions are exact binary64 values. -/

/-- `float("0.01")`. -/
lemma fl_one_hundredth : fl (1 / 100) = 5764607523034235 / 576460752303423488 := by
  have h1 : bitLen 1 = 1 := by decide
  have h2 : bitLen 100 = 7 := by decide
  norm_num [fl, flPos, floorLog2, pow2, roundHalfEven, h1, h2]
  simp [h1, h2]
  simp [Int.toNat]
  norm_num

/-- The literal `0.10`. -/
lemma fl_one_tenth : fl (10 / 100) = 3602879701896397 / 36028797018963968 := by
  have h1 : bitLen 1 = 1 := by decide
  have h2 : bitLen 10 = 4 := by decide
  norm_num [fl, flPos, floorLog2, pow2, roundHalfEven, h1, h2]
  simp [h1, h2]
  simp [Int.toNat]
  norm_num

/-- `float("0.03")`. -/
lemma fl_three_hundredths : fl (3 / 100) = 1080863910568919 / 36028797018963968 := by
  have h1 : bitLen 3 = 2 := by decide
  have h2 : bitLen 100 = 7 := by decide
  norm_num [fl, flPos, floorLog2, pow2, roundHalfEven, h1, h2]
  simp [h1, h2]
  simp [Int.toNat]
  norm_num

set_option maxRecDepth 100000 in
/-- The product `0.01 * 0.10` as computed in binary64. -/
lemma fl_comm_001 :
    fl ((5764607523034235 / 576460752303423488 : ℚ) * (3602879701896397 / 36028797018963968)) =
      1152921504606847 / 1152921504606846976 := by
  have h1 : bitLen 20769187434139312099389054151295 = 105 := by decide
  have h2 : bitLen 20769187434139310514121985316880384 = 115 := by decide
  norm_num [fl, flPos, floorLog2, pow2, roundHalfEven, h1, h2]
  simp [h1, h2]
  simp [Int.toNat]
  norm_num

set_option maxRecDepth 100000 in
/-- The product `0.03 * 0.10` as computed in binary64. -/
lemma fl_comm_003 :
    fl ((1080863910568919 / 36028797018963968 : ℚ) * (3602879701896397 / 36028797018963968)) =
      3458764513820541 / 1152921504606846976 := by
  have h1 : bitLen 3894222643901120793455466284843 = 102 := by decide
  have h2 : bitLen 1298074214633706907132624082305024 = 111 := by decide
  norm_num [fl, flPos, floorLog2, pow2, roundHalfEven, h1, h2]
  simp [h1, h2]
  simp [Int.toNat]
  norm_num

/-- The difference `0.01 - (0.01 * 0.10)` as computed in binary64. -/
lemma fl_res_001 :
    fl ((5764607523034235 / 576460752303423488 : ℚ) - 1152921504606847 / 1152921504606846976) =
      1297036692682703 / 144115188075855872 := by
  have h1 : bitLen 10376293541461623 = 54 := by decide
  have h2 : bitLen 1152921504606846976 = 61 := by decide
  norm_num [fl, flPos, floorLog2, pow2, roundHalfEven, h1, h2]
  simp [h1, h2]
  simp [Int.toNat]
  norm_num

/-- The sum `result + commission` for input `0.01` as computed in binary64
(an exact tie, rounded to even). -/
lemma fl_sum_001 :
    fl ((1297036692682703 / 144115188075855872 : ℚ) + 1152921504606847 / 1152921504606846976) =
      1441151880758559 / 144115188075855872 := by
  have h1 : bitLen 11529215046068471 = 54 := by decide
  have h2 : bitLen 1152921504606846976 = 61 := by decide
  norm_num [fl, flPos, floorLog2, pow2, roundHalfEven, h1, h2]
  simp [h1, h2]
  simp [Int.toNat]
  norm_num

/-! ## Claim theorems -/

/-- C3: `get_price` makes at most 3 attempts: two network failures then a
success make exactly 3 calls and return the third call's price; persistent
network failure makes exactly 3 calls and returns no price (no exception); a
first response with a missing/malformed price field makes exactly 1 call and
returns no price (no retry on data errors). -/
theorem get_price_retry_behavior :
    (∀ (src : ℕ → FetchOutcome) (p : ℚ),
      src 0 = .netErr → src 1 = .netErr → src 2 = .ok p →
      get_price src = (some p, 3)) ∧
    (∀ src : ℕ → FetchOutcome,
      src 0 = .netErr → src 1 = .netErr → src 2 = .netErr →
      get_price src = (none, 3)) ∧
    (∀ src : ℕ → FetchOutcome, src 0 = .dataErr → get_price src = (none, 1)) := by
  refine ⟨?_, ?_, ?_⟩
  · intro src p h0 h1 h2
    simp [get_price, getPriceAux, h0, h1, h2]
  · intro src h0 h1 h2
    simp [get_price, getPriceAux, h0, h1, h2]
  · intro src h0
    simp [get_price, getPriceAux, h0]

/-- Witness for C3 at three concrete quote sources. -/
theorem get_price_retry_witness :
    get_price (fun n => if n < 2 then .netErr else .ok 7) = (some 7, 3) ∧
    get_price (fun _ => .netErr) = (none, 3) ∧
    get_price (fun _ => .dataErr) = (none, 1) :=
  ⟨get_price_retry_behavior.1 _ 7 rfl rfl rfl,
   get_price_retry_behavior.2.1 _ rfl rfl rfl,
   get_price_retry_behavior.2.2 _ rfl⟩

/-- C9: a store read error makes `get_history` return the empty list rather
than propagate, and `show_history` then renders exactly the empty-history
reply — the same reply a user with no transactions gets. -/
theorem history_error_renders_empty :
    (∀ (e : String) (uid : Int), get_history (.error e) uid = []) ∧
    (∀ (e : String) (uid : Int),
      show_history (.error e) uid = .emptyHistory ∧
      show_history (.error e) uid = show_history (.ok []) uid) ∧
    (∀ (table : List DbRow) (uid : Int),
      table.filter (fun r => r.user_id = uid) = [] →
      show_history (.ok table) uid = .emptyHistory) := by
  refine ⟨fun e uid => rfl, fun e uid => ⟨rfl, rfl⟩, ?_⟩
  intro table uid h
  simp [show_history, get_history, h]

/-- Witness for C9 at a concrete error and a concrete foreign-user table. -/
theorem history_error_renders_empty_witness :
    get_history (.error "disk IO failure") 1 = [] ∧
    show_history (.error "disk IO failure") 1 = .emptyHistory ∧
    show_history (.ok [⟨1, 2, "eve", "cleaning", 1, 1, 0, 5⟩]) 1 = .emptyHistory :=
  ⟨history_error_renders_empty.1 "disk IO failure" 1,
   (history_error_renders_empty.2.1 "disk IO failure" 1).1,
   history_error_renders_empty.2.2 [⟨1, 2, "eve", "cleaning", 1, 1, 0, 5⟩] 1 (by decide)⟩

/-- C10: the start menu offers `USDT-BTC` and `USDT-ETH`, neither is a key of
`SUPPORTED_PAIRS`, the symbol lookup for them yields nothing, and selecting
them invokes the price fetch with no symbol — so whenever the fetch of a
missing symbol yields no price (as `get_price(None)` does), the selection
fails with the operation error. -/
theorem menu_pairs_missing_from_table :
    "USDT-BTC" ∈ startMenuData ∧ "USDT-ETH" ∈ startMenuData ∧
    SUPPORTED_PAIRS.lookup "USDT-BTC" = none ∧
    SUPPORTED_PAIRS.lookup "USDT-ETH" = none ∧
    lookupSymbol "USDT" "BTC" = none ∧
    lookupSymbol "USDT" "ETH" = none ∧
    (∀ fetch : Option String → Option ℚ, fetch none = none →
      handle_operation "USDT-BTC" fetch =
        ⟨{ UserData.empty with operation := some "USDT-BTC" }, .opError, .END⟩ ∧
      handle_operation "USDT-ETH" fetch =
        ⟨{ UserData.empty with operation := some "USDT-ETH" }, .opError, .END⟩) := by
  refine ⟨by decide, by decide, by decide, by decide, by decide, by decide, ?_⟩
  intro fetch hf
  have hs1 : splitDash "USDT-BTC" = ["USDT", "BTC"] := by decide
  have hs2 : splitDash "USDT-ETH" = ["USDT", "ETH"] := by decide
  have hl1 : lookupSymbol "USDT" "BTC" = none := by decide
  have hl2 : lookupSymbol "USDT" "ETH" = none := by decide
  constructor
  · simp [handle_operation, hs1, hl1, hf]
  · simp [handle_operation, hs2, hl2, hf]

/-- Witness for C10 with the fetch that yields nothing. -/
theorem menu_pairs_missing_witness :
    handle_operation "USDT-BTC" (fun _ => none) =
      ⟨{ UserData.empty with operation := some "USDT-BTC" }, .opError, .END⟩ ∧
    handle_operation "USDT-ETH" (fun _ => none) =
      ⟨{ UserData.empty with operation := some "USDT-ETH" }, .opError, .END⟩ :=
  menu_pairs_missing_from_table.2.2.2.2.2.2 (fun _ => none) rfl

/-- C8 (counterexample): the `cancel` fallback emits NO reply at all — in
particular not the session-expired reply — and leaves the session dictionary
untouched. -/
theorem cancel_emits_no_reply :
    (cancel_fallback { UserData.empty with operation := some "BTC-USDT" }).2.1 = none ∧
    (cancel_fallback { UserData.empty with operation := some "BTC-USDT" }).1 =
      { UserData.empty with operation := some "BTC-USDT" } :=
  ⟨rfl, rfl⟩

/-- C8 (amended): the `cancel` command during a conversation only ends the
conversation (→ Idle); it sends no reply of any kind and does not clear the
session dictionary. -/
theorem cancel_fallback_behavior (d : UserData) :
    cancel_fallback d = (d, none, .END) :=
  rfl

/-- C4 (counterexample): when the price fetch fails for a selected convert
operation, the error reply is emitted and the conversation ends, but the
session is NOT cleared: the stored operation is left behind. -/
theorem convert_failure_keeps_operation :
    (handle_operation "BTC-USDT" (fun _ => none)).data.operation = some "BTC-USDT" ∧
    (handle_operation "BTC-USDT" (fun _ => none)).data ≠ UserData.empty ∧
    (handle_operation "BTC-USDT" (fun _ => none)).reply = .opError ∧
    (handle_operation "BTC-USDT" (fun _ => none)).next = .END := by
  refine ⟨?_, ?_, ?_, ?_⟩ <;> decide

/-- C4 (amended): on a failed price fetch for a convert selection the handler
replies with the operation error and ends the conversation, but the session
dictionary keeps the freshly stored operation (only the earlier
`user_data.clear()` ran; nothing clears it in the failure branch). -/
theorem convert_failure_reply_and_state
    (op f t : String) (fetch : Option String → Option ℚ)
    (hsplit : splitDash op = [f, t]) (hcl : op ≠ "cleaning")
    (hfetch : fetch (lookupSymbol f t) = none) :
    handle_operation op fetch =
      ⟨{ UserData.empty with operation := some op }, .opError, .END⟩ := by
  simp [handle_operation, hsplit, hcl, hfetch]

/-- Witness for C4 at the BTC convert selection with a failing fetch. -/
theorem convert_failure_witness :
    handle_operation "BTC-USDT" (fun _ => none) =
      ⟨{ UserData.empty with operation := some "BTC-USDT" }, .opError, .END⟩ :=
  convert_failure_reply_and_state "BTC-USDT" "BTC" "USDT" (fun _ => none)
    (by decide) (by decide) rfl

/-- C5 (counterexample): if the CSV sink's write throws, `save_to_csv`
swallows the exception internally, so `handle_confirmation` still shows the
SUCCESS reply — not a save-failure reply — while the CSV file is unchanged
and the database row was written. -/
theorem csv_failure_reports_success :
    (handle_confirmation "confirm"
        ⟨some "cleaning", none, some (7, "bob"), some 100, some 90, some 10⟩
        false true ⟨[], ⟨false, false, []⟩⟩ 5).reply = .saved ∧
    (handle_confirmation "confirm"
        ⟨some "cleaning", none, some (7, "bob"), some 100, some 90, some 10⟩
        false true ⟨[], ⟨false, false, []⟩⟩ 5).sinks.csv = ⟨false, false, []⟩ ∧
    (handle_confirmation "confirm"
        ⟨some "cleaning", none, some (7, "bob"), some 100, some 90, some 10⟩
        false true ⟨[], ⟨false, false, []⟩⟩ 5).sinks.table =
      [⟨1, 7, "bob", "cleaning", 100, 90, 10, 5⟩] := by
  refine ⟨?_, ?_, ?_⟩ <;> decide

/-- C5 (amended): on confirm, a throw from the durable-store write yields the
save-failure reply with nothing written; a throw from the CSV write is logged
and swallowed inside the exporter, so the success reply is shown even though
only the database row was written; and for every choice and every sink
outcome the session dictionary is cleared. -/
theorem confirm_failure_handling
    (d : UserData) (uid : Int) (un op : String) (fa ta cm : ℚ)
    (st : Sinks) (now : ℕ)
    (hu : d.user = some (uid, un)) (hop : d.operation = some op)
    (hf : d.from_amount = some fa) (ht : d.to_amount = some ta)
    (hc : d.commission = some cm) :
    (∀ csvRaises, handle_confirmation "confirm" d true csvRaises st now =
      ⟨st, .saveError, UserData.empty⟩) ∧
    (handle_confirmation "confirm" d false true st now =
      ⟨⟨save_transaction uid un op fa ta cm now st.table, st.csv⟩, .saved, UserData.empty⟩) ∧
    (∀ (choice : String) (d' : UserData) (dbR csvR : Bool),
      (handle_confirmation choice d' dbR csvR st now).data = UserData.empty) := by
  refine ⟨?_, ?_, ?_⟩
  · intro csvRaises
    simp [handle_confirmation, hu, hop, hf, ht, hc]
  · simp [handle_confirmation, hu, hop, hf, ht, hc, save_to_csv]
  · intro choice d' dbR csvR
    by_cases hch : choice = "confirm"
    · subst hch
      simp only [handle_confirmation, if_pos rfl]
      rcases d'.user with _ | u <;> rcases d'.operation with _ | o <;>
        rcases d'.from_amount with _ | x <;> rcases d'.to_amount with _ | y <;>
        rcases d'.commission with _ | z <;>
        first
          | rfl
          | (obtain ⟨u1, u2⟩ := u
             cases dbR <;> rfl)
    · simp [handle_confirmation, hch]

/-- Witness for C5 at a concrete completed session. -/
theorem confirm_failure_witness :
    (handle_confirmation "confirm"
        ⟨some "cleaning", none, some (7, "bob"), some 100, some 90, some 10⟩
        true true ⟨[], ⟨false, false, []⟩⟩ 5 =
      ⟨⟨[], ⟨false, false, []⟩⟩, .saveError, UserData.empty⟩) ∧
    (handle_confirmation "confirm"
        ⟨some "cleaning", none, some (7, "bob"), some 100, some 90, some 10⟩
        false true ⟨[], ⟨false, false, []⟩⟩ 5 =
      ⟨⟨save_transaction 7 "bob" "cleaning" 100 90 10 5 [], ⟨false, false, []⟩⟩,
        .saved, UserData.empty⟩) ∧
    (handle_confirmation "cancel"
        ⟨some "cleaning", none, some (7, "bob"), some 100, some 90, some 10⟩
        false false ⟨[], ⟨false, false, []⟩⟩ 5).data = UserData.empty :=
  ⟨(confirm_failure_handling ⟨some "cleaning", none, some (7, "bob"), some 100, some 90, some 10⟩
      7 "bob" "cleaning" 100 90 10 ⟨[], ⟨false, false, []⟩⟩ 5 rfl rfl rfl rfl rfl).1 true,
   (confirm_failure_handling ⟨some "cleaning", none, some (7, "bob"), some 100, some 90, some 10⟩
      7 "bob" "cleaning" 100 90 10 ⟨[], ⟨false, false, []⟩⟩ 5 rfl rfl rfl rfl rfl).2.1,
   (confirm_failure_handling ⟨some "cleaning", none, some (7, "bob"), some 100, some 90, some 10⟩
      7 "bob" "cleaning" 100 90 10 ⟨[], ⟨false, false, []⟩⟩ 5 rfl rfl rfl rfl rfl).2.2
      "cancel" ⟨some "cleaning", none, some (7, "bob"), some 100, some 90, some 10⟩ false false⟩

/-- C2 (counterexample): the code computes the cleaning branch in binary64
floating point, not in a fixed-precision decimal domain.  At the accepted
input `"0.01"` (whose float value is `fl (1/100)`) the computed
`result + commission` differs from the amount both as exact rationals and
after the float addition the comparison would perform; at the accepted input
`"0.03"` the computed commission differs from `amount * 0.10`. -/
theorem clean_decimal_claim_fails :
    parseDecimal "0.01" = some (1 / 100) ∧
    (cleanCalcFloat (fl (1 / 100))).2 + (cleanCalcFloat (fl (1 / 100))).1 ≠ fl (1 / 100) ∧
    fl ((cleanCalcFloat (fl (1 / 100))).2 + (cleanCalcFloat (fl (1 / 100))).1) ≠ fl (1 / 100) ∧
    parseDecimal "0.03" = some (3 / 100) ∧
    (cleanCalcFloat (fl (3 / 100))).1 ≠ fl (3 / 100) * (10 / 100) := by
  refine ⟨?_, ?_, ?_, ?_, ?_⟩
  · have h : parseParts "0.01" = some (0, 1, 2) := by decide
    simp [parseDecimal, h]
    norm_num
  · simp only [cleanCalcFloat, fl_one_hundredth, fl_one_tenth, fl_comm_001, fl_res_001]
    norm_num
  · simp only [cleanCalcFloat, fl_one_hundredth, fl_one_tenth, fl_comm_001, fl_res_001,
      fl_sum_001]
    norm_num
  · have h : parseParts "0.03" = some (0, 3, 2) := by decide
    simp [parseDecimal, h]
    norm_num
  · simp only [cleanCalcFloat, fl_three_hundredths, fl_one_tenth, fl_comm_003]
    norm_num

/-- C2 (amended): in the exact rational semantics of the cleaning formulae,
`Clean(a)` returns `commission = a * 0.10` and `result = a - commission`, and
`result + commission = a` holds exactly; the code however evaluates these
formulae in Python binary64 floats, where the identity can fail
(see the counterexample). -/
theorem clean_exact_arithmetic (a : ℚ) (ha : 0 < a) :
    cleanCalc a = (a * (10 / 100), a - a * (10 / 100)) ∧
    (cleanCalc a).2 + (cleanCalc a).1 = a := by
  refine ⟨rfl, ?_⟩
  simp [cleanCalc]

/-- Witness for C2 at the amount 3. -/
theorem clean_exact_witness :
    cleanCalc 3 = (3 * (10 / 100), 3 - 3 * (10 / 100)) ∧
    (cleanCalc 3).2 + (cleanCalc 3).1 = 3 :=
  clean_exact_arithmetic 3 (by norm_num)

/-- C1: the convert branch divides by the rate when the source currency is
USDT and multiplies otherwise, then takes `commission = converted * 0.02` and
`result = converted - commission`; and the concrete scenario — selecting
`BTC-USDT` with a stubbed quote of 50000 and entering `0.01` — shows the
summary `converted = 500, commission = 10, result = 490` and, on confirm,
persists `from_amount = 0.01, to_amount = 490, commission = 10` in both the
database and the CSV log (amounts modelled as exact rationals). -/
theorem convert_rule_and_scenario :
    (∀ a p : ℚ, 0 < a → 0 < p →
      convertCalc "USDT" a p =
        (a / p, a / p * (2 / 100), a / p - a / p * (2 / 100)) ∧
      (∀ f : String, f ≠ "USDT" →
        convertCalc f a p =
          (a * p, a * p * (2 / 100), a * p - a * p * (2 / 100)))) ∧
    handle_operation "BTC-USDT" (fun _ => some 50000) =
      ⟨⟨some "BTC-USDT", some 50000, none, none, none, none⟩,
        .promptAmount "BTC", .INPUT_AMOUNT⟩ ∧
    process_amount "0.01" ⟨some "BTC-USDT", some 50000, none, none, none, none⟩
        42 (some "alice") =
      some ⟨⟨some "BTC-USDT", some 50000, some (42, "alice"),
              some (1 / 100), some 490, some 10⟩,
        .convertSummary (1 / 100) "BTC" "USDT" 50000 490 10, .END⟩ ∧
    handle_confirmation "confirm"
        ⟨some "BTC-USDT", some 50000, some (42, "alice"),
          some (1 / 100), some 490, some 10⟩
        false false ⟨[], ⟨false, false, []⟩⟩ 99 =
      ⟨⟨[⟨1, 42, "alice", "BTC-USDT", 1 / 100, 490, 10, 99⟩],
        ⟨true, true, [⟨99, 42, "alice", "BTC-USDT", 1 / 100, 490, 10⟩]⟩⟩,
        .saved, UserData.empty⟩ := by
  refine ⟨?_, ?_, ?_, ?_⟩
  · intro a p _ _
    constructor
    · simp [convertCalc]
    · intro f hf
      simp [convertCalc, hf]
  · decide
  · have h : parseParts "0.01" = some (0, 1, 2) := by decide
    have h2 : splitDash "BTC-USDT" = ["BTC", "USDT"] := by decide
    simp [process_amount, parseDecimal, h, h2, convertCalc, usernameOrDefault]
    norm_num
  · simp [handle_confirmation, save_transaction, save_to_csv]

/-- Witness for C1's direction rule at amount 1 and rate 2. -/
theorem convert_rule_witness :
    convertCalc "USDT" 1 2 =
      ((1 : ℚ) / 2, 1 / 2 * (2 / 100), 1 / 2 - 1 / 2 * (2 / 100)) ∧
    convertCalc "BTC" 1 2 =
      ((1 : ℚ) * 2, 1 * 2 * (2 / 100), 1 * 2 - 1 * 2 * (2 / 100)) :=
  ⟨(convert_rule_and_scenario.1 1 2 one_pos two_pos).1,
   (convert_rule_and_scenario.1 1 2 one_pos two_pos).2 "BTC" (by decide)⟩

instance : IsTotal DbRow tsDesc :=
  ⟨fun a b => Nat.le_total b.timestamp a.timestamp⟩

instance : IsTrans DbRow tsDesc :=
  ⟨fun _ _ _ h1 h2 => Nat.le_trans h2 h1⟩

/-- C7 (counterexample): `ORDER BY timestamp DESC` carries no id tie-break;
three rows inserted in order with EQUAL timestamps (what second-granularity
`CURRENT_TIMESTAMP` produces for quick consecutive confirms) come back in
ascending-id insertion order `[T1, T2, T3]`, not `[T3, T2, T1]`. -/
theorem history_tie_order_counterexample :
    get_history (.ok
      [⟨1, 1, "u1", "cleaning", 2, 1, 1, 100⟩,
       ⟨2, 1, "u2", "cleaning", 2, 1, 1, 100⟩,
       ⟨3, 1, "u3", "cleaning", 2, 1, 1, 100⟩]) 1 =
      [⟨"u1", "cleaning", 2, 1, 1, 100⟩,
       ⟨"u2", "cleaning", 2, 1, 1, 100⟩,
       ⟨"u3", "cleaning", 2, 1, 1, 100⟩] ∧
    get_history (.ok
      [⟨1, 1, "u1", "cleaning", 2, 1, 1, 100⟩,
       ⟨2, 1, "u2", "cleaning", 2, 1, 1, 100⟩,
       ⟨3, 1, "u3", "cleaning", 2, 1, 1, 100⟩]) 1 ≠
      [⟨"u3", "cleaning", 2, 1, 1, 100⟩,
       ⟨"u2", "cleaning", 2, 1, 1, 100⟩,
       ⟨"u1", "cleaning", 2, 1, 1, 100⟩] := by
  refine ⟨?_, ?_⟩ <;> decide

/-- C7 (amended): `history` returns the user's rows sorted descending by
timestamp (a permutation of the user's rows), with equal-timestamp ties in
insertion (ascending id) order — so `[T3, T2, T1]` results exactly when the
three timestamps strictly increase, as in the second conjunct. -/
theorem history_ordering :
    (∀ (db : List DbRow) (uid : Int),
      (get_history (.ok db) uid).Pairwise (fun a b => b.timestamp ≤ a.timestamp) ∧
      (get_history (.ok db) uid).Perm
        ((db.filter (fun r => r.user_id = uid)).map
          (fun r => (⟨r.username, r.operation_type, r.from_amount, r.to_amount,
                      r.commission, r.timestamp⟩ : HistEntry)))) ∧
    get_history (.ok
      [⟨1, 1, "u1", "cleaning", 2, 1, 1, 100⟩,
       ⟨2, 1, "u2", "cleaning", 2, 1, 1, 200⟩,
       ⟨3, 1, "u3", "cleaning", 2, 1, 1, 300⟩]) 1 =
      [⟨"u3", "cleaning", 2, 1, 1, 300⟩,
       ⟨"u2", "cleaning", 2, 1, 1, 200⟩,
       ⟨"u1", "cleaning", 2, 1, 1, 100⟩] := by
  refine ⟨?_, by decide⟩
  intro db uid
  constructor
  · have hs := List.sorted_insertionSort tsDesc (db.filter (fun r => r.user_id = uid))
    exact hs.map _ (fun a b h => h)
  · exact (List.perm_insertionSort tsDesc (db.filter (fun r => r.user_id = uid))).map _

/-- C6 (counterexample): the pricing step accepts any nonzero price — `if not
price` only rejects `None` and `0` — so a quote source yielding `-1` is stored
as the rate; entering amount `1` for `BTC-USDT` then computes and, on confirm,
persists a NEGATIVE commission `-1/50`, violating `commission ≥ 0`. -/
theorem negative_rate_negative_commission :
    handle_operation "BTC-USDT" (fun _ => some (-1)) =
      ⟨⟨some "BTC-USDT", some (-1), none, none, none, none⟩,
        .promptAmount "BTC", .INPUT_AMOUNT⟩ ∧
    process_amount "1" ⟨some "BTC-USDT", some (-1), none, none, none, none⟩
        7 (some "bob") =
      some ⟨⟨some "BTC-USDT", some (-1), some (7, "bob"),
              some 1, some (-(49 / 50)), some (-(1 / 50))⟩,
        .convertSummary 1 "BTC" "USDT" (-1) (-(49 / 50)) (-(1 / 50)), .END⟩ ∧
    (handle_confirmation "confirm"
        ⟨some "BTC-USDT", some (-1), some (7, "bob"),
          some 1, some (-(49 / 50)), some (-(1 / 50))⟩
        false false ⟨[], ⟨false, false, []⟩⟩ 0).sinks.table =
      [⟨1, 7, "bob", "BTC-USDT", 1, -(49 / 50), -(1 / 50), 0⟩] ∧
    ¬ (0 ≤ (-(1 / 50) : ℚ)) := by
  refine ⟨?_, ?_, ?_, by norm_num⟩
  · have hs : splitDash "BTC-USDT" = ["BTC", "USDT"] := by decide
    have hl : lookupSymbol "BTC" "USDT" = some "BTCUSDT" := by decide
    simp [handle_operation, hs, hl, UserData.empty]
  · have h : parseParts "1" = some (1, 0, 0) := by decide
    have hs : splitDash "BTC-USDT" = ["BTC", "USDT"] := by decide
    simp [process_amount, parseDecimal, h, hs, convertCalc, usernameOrDefault]
    norm_num
  · simp [handle_confirmation, save_transaction]

/-- C6 (amended): for every accepted text input (parsed positive amount) and
every stored session, the computed and persisted transaction satisfies
`fromAmount > 0` and `toAmount = base - commission` with `base` the entered
amount for Clean and the converted amount for Convert, and the row written on
confirm carries exactly those fields; `commission ≥ 0` holds unconditionally
for Clean and for Convert whenever the stored rate is positive — but the
pricing step also accepts negative rates, for which the commission is
negative (see the counterexample). -/
theorem persisted_invariant
    (txt : String) (d : UserData) (uid : Int) (un : Option String) (res : HandlerResult)
    (hfresh : d.from_amount = none)
    (hrun : process_amount txt d uid un = some res)
    (fa ta cm : ℚ)
    (hf : res.data.from_amount = some fa)
    (ht : res.data.to_amount = some ta)
    (hc : res.data.commission = some cm) :
    0 < fa ∧
    (d.operation = some "cleaning" →
      cm = fa * (10 / 100) ∧ ta = fa - cm ∧ 0 ≤ cm) ∧
    (∀ (op f t : String) (p : ℚ), d.operation = some op → op ≠ "cleaning" →
      splitDash op = [f, t] → d.price = some p →
      cm = (if f = "USDT" then fa / p else fa * p) * (2 / 100) ∧
      ta = (if f = "USDT" then fa / p else fa * p) - cm ∧
      (0 < p → 0 ≤ cm)) ∧
    (∀ (st : Sinks) (now : ℕ),
      (handle_confirmation "confirm" res.data false false st now).sinks.table =
        st.table ++ [⟨st.table.length + 1, uid, usernameOrDefault uid un,
          res.data.operation.getD "", fa, ta, cm, now⟩]) := by
  rcases hp : parseDecimal txt with _ | a
  · simp only [process_amount, hp, Option.some.injEq] at hrun
    subst hrun
    rw [hfresh] at hf
    cases hf
  · simp only [process_amount, hp] at hrun
    by_cases ha : a ≤ 0
    · rw [if_pos ha] at hrun
      simp only [Option.some.injEq] at hrun
      subst hrun
      rw [hfresh] at hf
      cases hf
    · rw [if_neg ha] at hrun
      rcases hop : d.operation with _ | op
      · simp only [hop, Option.some.injEq] at hrun
        subst hrun
        rw [hfresh] at hf
        cases hf
      · simp only [hop] at hrun
        by_cases hcl : op = "cleaning"
        · rw [if_pos hcl] at hrun
          simp only [Option.some.injEq] at hrun
          subst hrun
          simp only [cleanCalc] at hf ht hc
          obtain rfl : a = fa := by exact Option.some.inj hf
          obtain rfl : ta = a - a * (10 / 100) := (Option.some.inj ht).symm
          obtain rfl : cm = a * (10 / 100) := (Option.some.inj hc).symm
          have hapos : 0 < a := lt_of_not_ge ha
          refine ⟨hapos, ?_, ?_, ?_⟩
          · intro _
            refine ⟨rfl, rfl, ?_⟩
            positivity
          · intro op' f' t' p' hop' hne' _ _
            obtain rfl : op = op' := Option.some.inj hop'
            exact absurd hcl hne'
          · intro st now
            simp [handle_confirmation, save_transaction, hcl, cleanCalc]
        · rw [if_neg hcl] at hrun
          rcases hsp : splitDash op with _ | ⟨f, rest⟩
          · simp only [hsp] at hrun; cases hrun
          · rcases rest with _ | ⟨t, rest2⟩
            · simp only [hsp] at hrun; cases hrun
            · rcases rest2 with _ | _
              · rcases hpr : d.price with _ | p
                · simp only [hsp, hpr] at hrun; cases hrun
                · simp only [hsp, hpr, Option.some.injEq] at hrun
                  subst hrun
                  simp only [convertCalc] at hf ht hc
                  obtain rfl : a = fa := Option.some.inj hf
                  obtain rfl : ta = (if f = "USDT" then a / p else a * p) -
                      (if f = "USDT" then a / p else a * p) * (2 / 100) :=
                    (Option.some.inj ht).symm
                  obtain rfl : cm = (if f = "USDT" then a / p else a * p) * (2 / 100) :=
                    (Option.some.inj hc).symm
                  have hapos : 0 < a := lt_of_not_ge ha
                  refine ⟨hapos, ?_, ?_, ?_⟩
                  · intro hcontra
                    exact absurd (Option.some.inj hcontra) hcl
                  · intro op' f' t' p' hop' _ hsp' hpr'
                    obtain rfl : op = op' := Option.some.inj hop'
                    rw [hsp] at hsp'
                    obtain ⟨rfl, rfl⟩ : f = f' ∧ t = t' := by
                      injection hsp' with h1 h2; injection h2 with h3 _
                      exact ⟨h1, h3⟩
                    obtain rfl : p = p' := Option.some.inj hpr'
                    refine ⟨rfl, rfl, ?_⟩
                    intro hppos
                    by_cases husdt : f = "USDT"
                    · rw [if_pos husdt]
                      positivity
                    · rw [if_neg husdt]
                      positivity
                  · intro st now
                    simp [handle_confirmation, save_transaction, convertCalc]
              · simp only [hsp] at hrun; cases hrun

/-- Witness for C6 at the accepted input `"2"` for a Clean session. -/
theorem persisted_invariant_witness :
    0 < (2 : ℚ) ∧ (1 / 5 : ℚ) = 2 * (10 / 100) ∧ (9 / 5 : ℚ) = 2 - 1 / 5 ∧
      0 ≤ (1 / 5 : ℚ) := by
  have hrun : process_amount "2" ⟨some "cleaning", none, none, none, none, none⟩
      7 (some "bob") =
      some ⟨⟨some "cleaning", none, some (7, "bob"), some 2, some (9 / 5), some (1 / 5)⟩,
        .cleanSummary 2 (1 / 5) (9 / 5), .END⟩ := by
    have h : parseParts "2" = some (2, 0, 0) := by decide
    simp [process_amount, parseDecimal, h, cleanCalc, usernameOrDefault]
    norm_num
  have H := persisted_invariant "2" ⟨some "cleaning", none, none, none, none, none⟩
    7 (some "bob") _ rfl hrun 2 (9 / 5) (1 / 5) rfl rfl rfl
  exact ⟨H.1, (H.2.1 rfl).1, (H.2.1 rfl).2.1, (H.2.1 rfl).2.2⟩

end FreeBaseCrypto
